import Mathlib

/-!
Shallow embedding of `src/librustdoc/doc.rs` (the rustdoc document model)
and proofs about its operations.

Rust `~[T]` is modelled as `List T`, `~str` as `String`, `int` as `Int`,
`Option<T>` as `Option T`.  The fallible `Option::get` call in
`Doc::CrateDoc` is modelled by returning `Option CrateDoc`, where `none`
stands for the fatal failure.
-/

/-- `pub type AstId = int;` -/
abbrev AstId := Int

/-- `enum Implementation { Required, Provided }` -/
inductive Implementation where
  | Required : Implementation
  | Provided : Implementation
deriving DecidableEq

/-- `struct Section { header: ~str, body: ~str }` -/
structure Section where
  header : String
  body : String
deriving DecidableEq

/-- `struct IndexEntry { kind, name, brief, link }` -/
structure IndexEntry where
  kind : String
  name : String
  brief : Option String
  link : String
deriving DecidableEq

/-- `struct Index { entries: ~[IndexEntry] }` -/
structure Index where
  entries : List IndexEntry
deriving DecidableEq

/-- `struct ItemDoc` — the common item record, including the reexport flag. -/
structure ItemDoc where
  id : AstId
  name : String
  path : List String
  brief : Option String
  desc : Option String
  sections : List Section
  reexport : Bool
deriving DecidableEq

/-- `struct SimpleItemDoc { item: ItemDoc, sig: Option<~str> }`;
`ConstDoc`, `FnDoc` and `TyDoc` are type aliases of it. -/
structure SimpleItemDoc where
  item : ItemDoc
  sig : Option String
deriving DecidableEq

/-- `pub type ConstDoc = SimpleItemDoc;` -/
abbrev ConstDoc := SimpleItemDoc

/-- `pub type FnDoc = SimpleItemDoc;` -/
abbrev FnDoc := SimpleItemDoc

/-- `pub type TyDoc = SimpleItemDoc;` -/
abbrev TyDoc := SimpleItemDoc

/-- `struct VariantDoc { name, desc, sig }` -/
structure VariantDoc where
  name : String
  desc : Option String
  sig : Option String
deriving DecidableEq

/-- `struct EnumDoc { item: ItemDoc, variants: ~[VariantDoc] }` -/
structure EnumDoc where
  item : ItemDoc
  variants : List VariantDoc
deriving DecidableEq

/-- `struct MethodDoc` -/
structure MethodDoc where
  name : String
  brief : Option String
  desc : Option String
  sections : List Section
  sig : Option String
  implementation : Implementation
deriving DecidableEq

/-- `struct TraitDoc { item: ItemDoc, methods: ~[MethodDoc] }` -/
structure TraitDoc where
  item : ItemDoc
  methods : List MethodDoc
deriving DecidableEq

/-- `struct ImplDoc` -/
structure ImplDoc where
  item : ItemDoc
  bounds_str : Option String
  trait_types : List String
  self_ty : Option String
  methods : List MethodDoc
deriving DecidableEq

/-- `struct StructDoc { item: ItemDoc, fields: ~[~str], sig: Option<~str> }` -/
structure StructDoc where
  item : ItemDoc
  fields : List String
  sig : Option String
deriving DecidableEq

/-- `struct NmodDoc { item: ItemDoc, fns: ~[FnDoc], index: Option<Index> }` -/
structure NmodDoc where
  item : ItemDoc
  fns : List FnDoc
  index : Option Index
deriving DecidableEq

mutual

/-- `enum ItemTag` — the nine item variants; mutually recursive with
`ModDoc`, since a module contains further tagged items. -/
inductive ItemTag where
  | ModTag : ModDoc → ItemTag
  | NmodTag : NmodDoc → ItemTag
  | ConstTag : ConstDoc → ItemTag
  | FnTag : FnDoc → ItemTag
  | EnumTag : EnumDoc → ItemTag
  | TraitTag : TraitDoc → ItemTag
  | ImplTag : ImplDoc → ItemTag
  | TyTag : TyDoc → ItemTag
  | StructTag : StructDoc → ItemTag

/-- `struct ModDoc { item: ItemDoc, items: ~[ItemTag], index: Option<Index> }` -/
inductive ModDoc where
  | mk : ItemDoc → List ItemTag → Option Index → ModDoc

end

/-- Field accessor for `ModDoc.item`. -/
def ModDoc.item : ModDoc → ItemDoc
  | ModDoc.mk i _ _ => i

/-- Field accessor for `ModDoc.items`. -/
def ModDoc.items : ModDoc → List ItemTag
  | ModDoc.mk _ xs _ => xs

/-- Field accessor for `ModDoc.index`. -/
def ModDoc.index : ModDoc → Option Index
  | ModDoc.mk _ _ ix => ix

/-- `struct CrateDoc { topmod: ModDoc }` -/
structure CrateDoc where
  topmod : ModDoc

/-- `enum Page { CratePage(CrateDoc), ItemPage(ItemTag) }` -/
inductive Page where
  | CratePage : CrateDoc → Page
  | ItemPage : ItemTag → Page

/-- `struct Doc { pages: ~[Page] }` -/
structure Doc where
  pages : List Page

/-- One step of the fold inside `Doc::CrateDoc` (doc.rs lines 174-179).
The closure is `|_m, page| match copy *page { CratePage(doc) => Some(doc),
_ => None }`: the accumulator `_m` is discarded on every step. -/
def crateStep (_m : Option CrateDoc) : Page → Option CrateDoc
  | Page.CratePage d => some d
  | Page.ItemPage _ => none

/-- `Doc::CrateDoc` (doc.rs lines 173-180): fold `crateStep` over the pages
starting from `None`, then `.get()`.  The `.get()` failure is modelled by
the result being `none`. -/
def Doc.crateDoc (d : Doc) : Option CrateDoc :=
  d.pages.foldl crateStep none

/-- `Doc::cratemod` (doc.rs lines 182-184): `copy self.CrateDoc().topmod`;
it fails exactly when `CrateDoc()` fails. -/
def Doc.cratemod (d : Doc) : Option ModDoc :=
  (d.crateDoc).map CrateDoc.topmod

/-! ### The `filt_mapper!` filters

`filt_mapper!($vec, $pat)` expands to a `filter_map` keeping the payload
`x` of every element matching `$pat` (doc.rs lines 187-196).  The per-tag
projections below are those generated matches. -/

/-- `md!(ModTag)` projection: payload of a `ModTag`, else `None`. -/
def modProj : ItemTag → Option ModDoc
  | ItemTag.ModTag x => some x
  | _ => none

/-- `md!(NmodTag)` projection. -/
def nmodProj : ItemTag → Option NmodDoc
  | ItemTag.NmodTag x => some x
  | _ => none

/-- `md!(ConstTag)` projection. -/
def constProj : ItemTag → Option ConstDoc
  | ItemTag.ConstTag x => some x
  | _ => none

/-- `md!(FnTag)` projection. -/
def fnProj : ItemTag → Option FnDoc
  | ItemTag.FnTag x => some x
  | _ => none

/-- `md!(EnumTag)` projection. -/
def enumProj : ItemTag → Option EnumDoc
  | ItemTag.EnumTag x => some x
  | _ => none

/-- `md!(TraitTag)` projection. -/
def traitProj : ItemTag → Option TraitDoc
  | ItemTag.TraitTag x => some x
  | _ => none

/-- `md!(ImplTag)` projection. -/
def implProj : ItemTag → Option ImplDoc
  | ItemTag.ImplTag x => some x
  | _ => none

/-- `md!(TyTag)` projection. -/
def tyProj : ItemTag → Option TyDoc
  | ItemTag.TyTag x => some x
  | _ => none

/-- `md!(StructTag)` projection. -/
def structProj : ItemTag → Option StructDoc
  | ItemTag.StructTag x => some x
  | _ => none

/-! `impl ModDoc` (doc.rs lines 204-240): the nine module-level narrowing
methods, each `md!(Tag)` = `filt_mapper!(self.items, Tag(ref x))`. -/

/-- `ModDoc::mods` -/
def ModDoc.mods (m : ModDoc) : List ModDoc := m.items.filterMap modProj

/-- `ModDoc::nmods` -/
def ModDoc.nmods (m : ModDoc) : List NmodDoc := m.items.filterMap nmodProj

/-- `ModDoc::fns` -/
def ModDoc.fns (m : ModDoc) : List FnDoc := m.items.filterMap fnProj

/-- `ModDoc::consts` -/
def ModDoc.consts (m : ModDoc) : List ConstDoc := m.items.filterMap constProj

/-- `ModDoc::enums` -/
def ModDoc.enums (m : ModDoc) : List EnumDoc := m.items.filterMap enumProj

/-- `ModDoc::traits` -/
def ModDoc.traits (m : ModDoc) : List TraitDoc := m.items.filterMap traitProj

/-- `ModDoc::impls` -/
def ModDoc.impls (m : ModDoc) : List ImplDoc := m.items.filterMap implProj

/-- `ModDoc::types` -/
def ModDoc.types (m : ModDoc) : List TyDoc := m.items.filterMap tyProj

/-- `ModDoc::structs` -/
def ModDoc.structs (m : ModDoc) : List StructDoc := m.items.filterMap structProj

/-! `impl PageUtils for ~[Page]` (doc.rs lines 259-292): eight page-level
narrowing methods, each `pu!(Tag)` = `filt_mapper!(*self, ItemPage(Tag(ref x)))`.
(The trait has no `structs` method.) -/

/-- `pu!(ModTag)` projection: payload of an `ItemPage(ModTag(x))`. -/
def pageModProj : Page → Option ModDoc
  | Page.ItemPage (ItemTag.ModTag x) => some x
  | _ => none

/-- `pu!(NmodTag)` projection. -/
def pageNmodProj : Page → Option NmodDoc
  | Page.ItemPage (ItemTag.NmodTag x) => some x
  | _ => none

/-- `pu!(FnTag)` projection. -/
def pageFnProj : Page → Option FnDoc
  | Page.ItemPage (ItemTag.FnTag x) => some x
  | _ => none

/-- `pu!(ConstTag)` projection. -/
def pageConstProj : Page → Option ConstDoc
  | Page.ItemPage (ItemTag.ConstTag x) => some x
  | _ => none

/-- `pu!(EnumTag)` projection. -/
def pageEnumProj : Page → Option EnumDoc
  | Page.ItemPage (ItemTag.EnumTag x) => some x
  | _ => none

/-- `pu!(TraitTag)` projection. -/
def pageTraitProj : Page → Option TraitDoc
  | Page.ItemPage (ItemTag.TraitTag x) => some x
  | _ => none

/-- `pu!(ImplTag)` projection. -/
def pageImplProj : Page → Option ImplDoc
  | Page.ItemPage (ItemTag.ImplTag x) => some x
  | _ => none

/-- `pu!(TyTag)` projection. -/
def pageTyProj : Page → Option TyDoc
  | Page.ItemPage (ItemTag.TyTag x) => some x
  | _ => none

namespace PageUtils

/-- `PageUtils::mods for ~[Page]` -/
def mods (ps : List Page) : List ModDoc := ps.filterMap pageModProj

/-- `PageUtils::nmods` -/
def nmods (ps : List Page) : List NmodDoc := ps.filterMap pageNmodProj

/-- `PageUtils::fns` -/
def fns (ps : List Page) : List FnDoc := ps.filterMap pageFnProj

/-- `PageUtils::consts` -/
def consts (ps : List Page) : List ConstDoc := ps.filterMap pageConstProj

/-- `PageUtils::enums` -/
def enums (ps : List Page) : List EnumDoc := ps.filterMap pageEnumProj

/-- `PageUtils::traits` -/
def traits (ps : List Page) : List TraitDoc := ps.filterMap pageTraitProj

/-- `PageUtils::impls` -/
def impls (ps : List Page) : List ImplDoc := ps.filterMap pageImplProj

/-- `PageUtils::types` -/
def types (ps : List Page) : List TyDoc := ps.filterMap pageTyProj

end PageUtils

/-- `impl Item for ItemTag` (doc.rs lines 298-312): dispatch on the active
variant and return its embedded item record. -/
def ItemTag.item : ItemTag → ItemDoc
  | ItemTag.ModTag d => d.item
  | ItemTag.NmodTag d => d.item
  | ItemTag.FnTag d => d.item
  | ItemTag.ConstTag d => d.item
  | ItemTag.EnumTag d => d.item
  | ItemTag.TraitTag d => d.item
  | ItemTag.ImplTag d => d.item
  | ItemTag.TyTag d => d.item
  | ItemTag.StructTag d => d.item

/-- `trait Item { fn item(&self) -> ItemDoc; }` (doc.rs lines 294-296). -/
class Item (α : Type) where
  item : α → ItemDoc

instance : Item ItemTag := ⟨ItemTag.item⟩

/-- `impl Item for SimpleItemDoc` -/
instance : Item SimpleItemDoc := ⟨SimpleItemDoc.item⟩

/-- `impl Item for ModDoc` -/
instance : Item ModDoc := ⟨ModDoc.item⟩

/-- `impl Item for NmodDoc` -/
instance : Item NmodDoc := ⟨NmodDoc.item⟩

/-- `impl Item for EnumDoc` -/
instance : Item EnumDoc := ⟨EnumDoc.item⟩

/-- `impl Item for TraitDoc` -/
instance : Item TraitDoc := ⟨TraitDoc.item⟩

/-- `impl Item for ImplDoc` -/
instance : Item ImplDoc := ⟨ImplDoc.item⟩

/-- `impl Item for StructDoc` -/
instance : Item StructDoc := ⟨StructDoc.item⟩

namespace ItemUtils

/-- `ItemUtils::id` (doc.rs lines 352-354), for any `A: Item`. -/
def id {α : Type} [Item α] (v : α) : AstId := (Item.item v).id

/-- `ItemUtils::name` -/
def name {α : Type} [Item α] (v : α) : String := (Item.item v).name

/-- `ItemUtils::path` -/
def path {α : Type} [Item α] (v : α) : List String := (Item.item v).path

/-- `ItemUtils::brief` -/
def brief {α : Type} [Item α] (v : α) : Option String := (Item.item v).brief

/-- `ItemUtils::desc` -/
def desc {α : Type} [Item α] (v : α) : Option String := (Item.item v).desc

/-- `ItemUtils::sections` -/
def sections {α : Type} [Item α] (v : α) : List Section := (Item.item v).sections

end ItemUtils

/-! ### Helper lemmas -/

/-- Since `crateStep` discards its accumulator, the fold in `Doc::CrateDoc`
computes `crateStep` of the last page (or the initial accumulator when the
page list is empty). -/
theorem foldl_crateStep_eq_getLast (l : List Page) (acc : Option CrateDoc) :
    l.foldl crateStep acc =
      (match l.getLast? with
       | none => acc
       | some p => crateStep none p) := by
  induction l generalizing acc with
  | nil => rfl
  | cons a t ih =>
    cases t with
    | nil => cases a <;> rfl
    | cons b t2 =>
      rw [List.foldl_cons, ih, List.getLast?_cons_cons]
      cases hl : (b :: t2).getLast? with
      | none => exact absurd (List.getLast?_eq_none_iff.mp hl) (List.cons_ne_nil b t2)
      | some p => rfl

/-- A `filterMap` by a partial projection `f`, re-wrapped through the
section `g` of `f`, is the `filter` by the domain predicate `p` of `f`. -/
theorem filterMap_map_eq_filter {α β : Type} (f : α → Option β) (g : β → α)
    (p : α → Bool)
    (h : ∀ a : α, (∀ b, f a = some b → p a = true ∧ g b = a) ∧
      (f a = none → p a = false)) :
    ∀ l : List α, (l.filterMap f).map g = l.filter p := by
  intro l
  induction l with
  | nil => rfl
  | cons a t ih =>
    cases hf : f a with
    | none =>
      rw [List.filterMap_cons_none hf, List.filter_cons, (h a).2 hf]
      simpa using ih
    | some b =>
      rw [List.filterMap_cons_some hf, List.filter_cons, ((h a).1 b hf).1]
      simp [ih, ((h a).1 b hf).2]

/-- `filterMap f` after `map g` is the identity when `f ∘ g = some`. -/
theorem filterMap_of_map_section {α β : Type} (f : α → Option β) (g : β → α)
    (h : ∀ b : β, f (g b) = some b) :
    ∀ l : List β, (l.map g).filterMap f = l := by
  intro l
  induction l with
  | nil => rfl
  | cons b t ih =>
    rw [List.map_cons, List.filterMap_cons_some (h b), ih]

/-! ### Concrete sample values, used in counterexamples and witnesses -/

/-- A minimal item record with a given name. -/
def sampleItem (nm : String) : ItemDoc :=
  { id := 0, name := nm, path := [], brief := none, desc := none,
    sections := [], reexport := false }

/-- The module `A` of the spec scenario: empty module named "A". -/
def modA : ModDoc := ModDoc.mk (sampleItem "A") [] none

/-- The function `f` of the spec scenario. -/
def fnF : FnDoc := { item := sampleItem "f", sig := none }

/-- The crate root module of the spec scenario: children `[ModTag(A)]`. -/
def rootModA : ModDoc := ModDoc.mk (sampleItem "root") [ItemTag.ModTag modA] none

/-- The spec scenario document:
pages `[Crate(root={mods:[A]}), Item(Mod(A)), Item(Fn(f))]`. -/
def docScenario : Doc :=
  ⟨[Page.CratePage ⟨rootModA⟩,
    Page.ItemPage (ItemTag.ModTag modA),
    Page.ItemPage (ItemTag.FnTag fnF)]⟩

/-- A second crate doc, used to show that with two crate pages the later
one wins. -/
def crateB : CrateDoc := ⟨ModDoc.mk (sampleItem "B") [] none⟩

/-- A document with two Crate pages. -/
def docTwoCrates : Doc :=
  ⟨[Page.CratePage ⟨rootModA⟩, Page.CratePage crateB]⟩

/-- A document whose single page is a Crate page. -/
def docOneCrate : Doc := ⟨[Page.CratePage ⟨rootModA⟩]⟩

/-- Number of Crate pages in a document (the quantity claim C1 counts). -/
def cratePageCount (d : Doc) : Nat :=
  d.pages.countP fun p =>
    match p with
    | Page.CratePage _ => true
    | Page.ItemPage _ => false

/-- Emptiness characterisation of a `filterMap` by a partial projection:
the result is empty exactly when no element is in the image of the
section `g`. -/
theorem filterMap_eq_nil_char {α β : Type} (f : α → Option β) (g : β → α)
    (p : α → Bool)
    (h : ∀ a : α, (∀ b, f a = some b → p a = true ∧ g b = a) ∧
      (f a = none → p a = false))
    (hp : ∀ a : α, p a = true ↔ ∃ b, a = g b) (l : List α) :
    l.filterMap f = [] ↔ ∀ a ∈ l, ∀ b, a ≠ g b := by
  have h1 := filterMap_map_eq_filter f g p h l
  constructor
  · intro hnil a ha b hab
    rw [hnil, List.map_nil] at h1
    have hpa : p a = true := (hp a).mpr ⟨b, hab⟩
    have hmem : a ∈ l.filter p := List.mem_filter.mpr ⟨ha, hpa⟩
    rw [← h1] at hmem
    simp at hmem
  · intro hall
    have hfil : l.filter p = [] := by
      rw [List.filter_eq_nil_iff]
      intro a ha hpa
      obtain ⟨b, hb⟩ := (hp a).mp hpa
      exact hall a ha b hb
    rw [hfil] at h1
    exact List.map_eq_nil_iff.mp h1

/-! ### Spec-side tag predicates (used only to state the claims) -/

/-- The child is a `ModTag`. -/
def hasModTag : ItemTag → Bool
  | ItemTag.ModTag _ => true
  | _ => false

/-- The child is an `NmodTag`. -/
def hasNmodTag : ItemTag → Bool
  | ItemTag.NmodTag _ => true
  | _ => false

/-- The child is a `ConstTag`. -/
def hasConstTag : ItemTag → Bool
  | ItemTag.ConstTag _ => true
  | _ => false

/-- The child is an `FnTag`. -/
def hasFnTag : ItemTag → Bool
  | ItemTag.FnTag _ => true
  | _ => false

/-- The child is an `EnumTag`. -/
def hasEnumTag : ItemTag → Bool
  | ItemTag.EnumTag _ => true
  | _ => false

/-- The child is a `TraitTag`. -/
def hasTraitTag : ItemTag → Bool
  | ItemTag.TraitTag _ => true
  | _ => false

/-- The child is an `ImplTag`. -/
def hasImplTag : ItemTag → Bool
  | ItemTag.ImplTag _ => true
  | _ => false

/-- The child is a `TyTag`. -/
def hasTyTag : ItemTag → Bool
  | ItemTag.TyTag _ => true
  | _ => false

/-- The child is a `StructTag`. -/
def hasStructTag : ItemTag → Bool
  | ItemTag.StructTag _ => true
  | _ => false

/-- Per-tag characterisation for `ModTag`: the filter result, re-wrapped,
is the `ModTag`-filtered child list, and it is empty iff no `ModTag`
child exists. -/
theorem mod_filter_char (l : List ItemTag) :
    (l.filterMap modProj).map ItemTag.ModTag = l.filter hasModTag ∧
    (l.filterMap modProj = [] ↔ ∀ t ∈ l, ∀ x, t ≠ ItemTag.ModTag x) :=
  ⟨filterMap_map_eq_filter modProj ItemTag.ModTag hasModTag
      (fun a => by cases a <;> simp [modProj, hasModTag]) l,
   filterMap_eq_nil_char modProj ItemTag.ModTag hasModTag
      (fun a => by cases a <;> simp [modProj, hasModTag])
      (fun a => by cases a <;> simp [hasModTag]) l⟩

/-- Per-tag characterisation for `NmodTag`. -/
theorem nmod_filter_char (l : List ItemTag) :
    (l.filterMap nmodProj).map ItemTag.NmodTag = l.filter hasNmodTag ∧
    (l.filterMap nmodProj = [] ↔ ∀ t ∈ l, ∀ x, t ≠ ItemTag.NmodTag x) :=
  ⟨filterMap_map_eq_filter nmodProj ItemTag.NmodTag hasNmodTag
      (fun a => by cases a <;> simp [nmodProj, hasNmodTag]) l,
   filterMap_eq_nil_char nmodProj ItemTag.NmodTag hasNmodTag
      (fun a => by cases a <;> simp [nmodProj, hasNmodTag])
      (fun a => by cases a <;> simp [hasNmodTag]) l⟩

/-- Per-tag characterisation for `FnTag`. -/
theorem fn_filter_char (l : List ItemTag) :
    (l.filterMap fnProj).map ItemTag.FnTag = l.filter hasFnTag ∧
    (l.filterMap fnProj = [] ↔ ∀ t ∈ l, ∀ x, t ≠ ItemTag.FnTag x) :=
  ⟨filterMap_map_eq_filter fnProj ItemTag.FnTag hasFnTag
      (fun a => by cases a <;> simp [fnProj, hasFnTag]) l,
   filterMap_eq_nil_char fnProj ItemTag.FnTag hasFnTag
      (fun a => by cases a <;> simp [fnProj, hasFnTag])
      (fun a => by cases a <;> simp [hasFnTag]) l⟩

/-- Per-tag characterisation for `ConstTag`. -/
theorem const_filter_char (l : List ItemTag) :
    (l.filterMap constProj).map ItemTag.ConstTag = l.filter hasConstTag ∧
    (l.filterMap constProj = [] ↔ ∀ t ∈ l, ∀ x, t ≠ ItemTag.ConstTag x) :=
  ⟨filterMap_map_eq_filter constProj ItemTag.ConstTag hasConstTag
      (fun a => by cases a <;> simp [constProj, hasConstTag]) l,
   filterMap_eq_nil_char constProj ItemTag.ConstTag hasConstTag
      (fun a => by cases a <;> simp [constProj, hasConstTag])
      (fun a => by cases a <;> simp [hasConstTag]) l⟩

/-- Per-tag characterisation for `EnumTag`. -/
theorem enum_filter_char (l : List ItemTag) :
    (l.filterMap enumProj).map ItemTag.EnumTag = l.filter hasEnumTag ∧
    (l.filterMap enumProj = [] ↔ ∀ t ∈ l, ∀ x, t ≠ ItemTag.EnumTag x) :=
  ⟨filterMap_map_eq_filter enumProj ItemTag.EnumTag hasEnumTag
      (fun a => by cases a <;> simp [enumProj, hasEnumTag]) l,
   filterMap_eq_nil_char enumProj ItemTag.EnumTag hasEnumTag
      (fun a => by cases a <;> simp [enumProj, hasEnumTag])
      (fun a => by cases a <;> simp [hasEnumTag]) l⟩

/-- Per-tag characterisation for `TraitTag`. -/
theorem trait_filter_char (l : List ItemTag) :
    (l.filterMap traitProj).map ItemTag.TraitTag = l.filter hasTraitTag ∧
    (l.filterMap traitProj = [] ↔ ∀ t ∈ l, ∀ x, t ≠ ItemTag.TraitTag x) :=
  ⟨filterMap_map_eq_filter traitProj ItemTag.TraitTag hasTraitTag
      (fun a => by cases a <;> simp [traitProj, hasTraitTag]) l,
   filterMap_eq_nil_char traitProj ItemTag.TraitTag hasTraitTag
      (fun a => by cases a <;> simp [traitProj, hasTraitTag])
      (fun a => by cases a <;> simp [hasTraitTag]) l⟩

/-- Per-tag characterisation for `ImplTag`. -/
theorem impl_filter_char (l : List ItemTag) :
    (l.filterMap implProj).map ItemTag.ImplTag = l.filter hasImplTag ∧
    (l.filterMap implProj = [] ↔ ∀ t ∈ l, ∀ x, t ≠ ItemTag.ImplTag x) :=
  ⟨filterMap_map_eq_filter implProj ItemTag.ImplTag hasImplTag
      (fun a => by cases a <;> simp [implProj, hasImplTag]) l,
   filterMap_eq_nil_char implProj ItemTag.ImplTag hasImplTag
      (fun a => by cases a <;> simp [implProj, hasImplTag])
      (fun a => by cases a <;> simp [hasImplTag]) l⟩

/-- Per-tag characterisation for `TyTag`. -/
theorem ty_filter_char (l : List ItemTag) :
    (l.filterMap tyProj).map ItemTag.TyTag = l.filter hasTyTag ∧
    (l.filterMap tyProj = [] ↔ ∀ t ∈ l, ∀ x, t ≠ ItemTag.TyTag x) :=
  ⟨filterMap_map_eq_filter tyProj ItemTag.TyTag hasTyTag
      (fun a => by cases a <;> simp [tyProj, hasTyTag]) l,
   filterMap_eq_nil_char tyProj ItemTag.TyTag hasTyTag
      (fun a => by cases a <;> simp [tyProj, hasTyTag])
      (fun a => by cases a <;> simp [hasTyTag]) l⟩

/-- Per-tag characterisation for `StructTag`. -/
theorem struct_filter_char (l : List ItemTag) :
    (l.filterMap structProj).map ItemTag.StructTag = l.filter hasStructTag ∧
    (l.filterMap structProj = [] ↔ ∀ t ∈ l, ∀ x, t ≠ ItemTag.StructTag x) :=
  ⟨filterMap_map_eq_filter structProj ItemTag.StructTag hasStructTag
      (fun a => by cases a <;> simp [structProj, hasStructTag]) l,
   filterMap_eq_nil_char structProj ItemTag.StructTag hasStructTag
      (fun a => by cases a <;> simp [structProj, hasStructTag])
      (fun a => by cases a <;> simp [hasStructTag]) l⟩

/-! ### Spec-side page predicates (used only to state the claims) -/

/-- The page is an Item page whose inner tag is `ModTag`. -/
def isModItemPage : Page → Bool
  | Page.ItemPage (ItemTag.ModTag _) => true
  | _ => false

/-- The page is an Item page whose inner tag is `NmodTag`. -/
def isNmodItemPage : Page → Bool
  | Page.ItemPage (ItemTag.NmodTag _) => true
  | _ => false

/-- The page is an Item page whose inner tag is `FnTag`. -/
def isFnItemPage : Page → Bool
  | Page.ItemPage (ItemTag.FnTag _) => true
  | _ => false

/-- The page is an Item page whose inner tag is `ConstTag`. -/
def isConstItemPage : Page → Bool
  | Page.ItemPage (ItemTag.ConstTag _) => true
  | _ => false

/-- The page is an Item page whose inner tag is `EnumTag`. -/
def isEnumItemPage : Page → Bool
  | Page.ItemPage (ItemTag.EnumTag _) => true
  | _ => false

/-- The page is an Item page whose inner tag is `TraitTag`. -/
def isTraitItemPage : Page → Bool
  | Page.ItemPage (ItemTag.TraitTag _) => true
  | _ => false

/-- The page is an Item page whose inner tag is `ImplTag`. -/
def isImplItemPage : Page → Bool
  | Page.ItemPage (ItemTag.ImplTag _) => true
  | _ => false

/-- The page is an Item page whose inner tag is `TyTag`. -/
def isTyItemPage : Page → Bool
  | Page.ItemPage (ItemTag.TyTag _) => true
  | _ => false

/-- Page-level characterisation for `ModTag`: the `PageUtils` filter
result, re-wrapped as an Item page, is the filtered page list. -/
theorem pageMod_filter_char (l : List Page) :
    (l.filterMap pageModProj).map (fun x => Page.ItemPage (ItemTag.ModTag x)) =
      l.filter isModItemPage :=
  filterMap_map_eq_filter pageModProj (fun x => Page.ItemPage (ItemTag.ModTag x))
    isModItemPage
    (fun a => by
      cases a with
      | CratePage c => simp [pageModProj, isModItemPage]
      | ItemPage t => cases t <;> simp [pageModProj, isModItemPage]) l

/-- Page-level characterisation for `NmodTag`: the `PageUtils` filter
result, re-wrapped as an Item page, is the filtered page list. -/
theorem pageNmod_filter_char (l : List Page) :
    (l.filterMap pageNmodProj).map (fun x => Page.ItemPage (ItemTag.NmodTag x)) =
      l.filter isNmodItemPage :=
  filterMap_map_eq_filter pageNmodProj (fun x => Page.ItemPage (ItemTag.NmodTag x))
    isNmodItemPage
    (fun a => by
      cases a with
      | CratePage c => simp [pageNmodProj, isNmodItemPage]
      | ItemPage t => cases t <;> simp [pageNmodProj, isNmodItemPage]) l

/-- Page-level characterisation for `FnTag`: the `PageUtils` filter
result, re-wrapped as an Item page, is the filtered page list. -/
theorem pageFn_filter_char (l : List Page) :
    (l.filterMap pageFnProj).map (fun x => Page.ItemPage (ItemTag.FnTag x)) =
      l.filter isFnItemPage :=
  filterMap_map_eq_filter pageFnProj (fun x => Page.ItemPage (ItemTag.FnTag x))
    isFnItemPage
    (fun a => by
      cases a with
      | CratePage c => simp [pageFnProj, isFnItemPage]
      | ItemPage t => cases t <;> simp [pageFnProj, isFnItemPage]) l

/-- Page-level characterisation for `ConstTag`: the `PageUtils` filter
result, re-wrapped as an Item page, is the filtered page list. -/
theorem pageConst_filter_char (l : List Page) :
    (l.filterMap pageConstProj).map (fun x => Page.ItemPage (ItemTag.ConstTag x)) =
      l.filter isConstItemPage :=
  filterMap_map_eq_filter pageConstProj (fun x => Page.ItemPage (ItemTag.ConstTag x))
    isConstItemPage
    (fun a => by
      cases a with
      | CratePage c => simp [pageConstProj, isConstItemPage]
      | ItemPage t => cases t <;> simp [pageConstProj, isConstItemPage]) l

/-- Page-level characterisation for `EnumTag`: the `PageUtils` filter
result, re-wrapped as an Item page, is the filtered page list. -/
theorem pageEnum_filter_char (l : List Page) :
    (l.filterMap pageEnumProj).map (fun x => Page.ItemPage (ItemTag.EnumTag x)) =
      l.filter isEnumItemPage :=
  filterMap_map_eq_filter pageEnumProj (fun x => Page.ItemPage (ItemTag.EnumTag x))
    isEnumItemPage
    (fun a => by
      cases a with
      | CratePage c => simp [pageEnumProj, isEnumItemPage]
      | ItemPage t => cases t <;> simp [pageEnumProj, isEnumItemPage]) l

/-- Page-level characterisation for `TraitTag`: the `PageUtils` filter
result, re-wrapped as an Item page, is the filtered page list. -/
theorem pageTrait_filter_char (l : List Page) :
    (l.filterMap pageTraitProj).map (fun x => Page.ItemPage (ItemTag.TraitTag x)) =
      l.filter isTraitItemPage :=
  filterMap_map_eq_filter pageTraitProj (fun x => Page.ItemPage (ItemTag.TraitTag x))
    isTraitItemPage
    (fun a => by
      cases a with
      | CratePage c => simp [pageTraitProj, isTraitItemPage]
      | ItemPage t => cases t <;> simp [pageTraitProj, isTraitItemPage]) l

/-- Page-level characterisation for `ImplTag`: the `PageUtils` filter
result, re-wrapped as an Item page, is the filtered page list. -/
theorem pageImpl_filter_char (l : List Page) :
    (l.filterMap pageImplProj).map (fun x => Page.ItemPage (ItemTag.ImplTag x)) =
      l.filter isImplItemPage :=
  filterMap_map_eq_filter pageImplProj (fun x => Page.ItemPage (ItemTag.ImplTag x))
    isImplItemPage
    (fun a => by
      cases a with
      | CratePage c => simp [pageImplProj, isImplItemPage]
      | ItemPage t => cases t <;> simp [pageImplProj, isImplItemPage]) l

/-- Page-level characterisation for `TyTag`: the `PageUtils` filter
result, re-wrapped as an Item page, is the filtered page list. -/
theorem pageTy_filter_char (l : List Page) :
    (l.filterMap pageTyProj).map (fun x => Page.ItemPage (ItemTag.TyTag x)) =
      l.filter isTyItemPage :=
  filterMap_map_eq_filter pageTyProj (fun x => Page.ItemPage (ItemTag.TyTag x))
    isTyItemPage
    (fun a => by
      cases a with
      | CratePage c => simp [pageTyProj, isTyItemPage]
      | ItemPage t => cases t <;> simp [pageTyProj, isTyItemPage]) l

/-- The names of the nine narrowing methods of `impl ModDoc`
(doc.rs lines 204-240), in source order. -/
def modDocOpNames : List String :=
  ["mods", "nmods", "fns", "consts", "enums", "traits", "impls", "types",
   "structs"]

/-- The names of the eight methods of `trait PageUtils`
(doc.rs lines 248-257), in source order. -/
def pageUtilsOpNames : List String :=
  ["mods", "nmods", "fns", "consts", "enums", "traits", "impls", "types"]

/-- `Doc::CrateDoc` depends only on the document's last page: it returns
the payload when the last page is a Crate page and fails otherwise. -/
theorem crateDoc_eq_lastPage (d : Doc) :
    d.crateDoc =
      (match d.pages.getLast? with
       | some (Page.CratePage c) => some c
       | _ => none) := by
  show d.pages.foldl crateStep none = _
  rw [foldl_crateStep_eq_getLast]
  cases h : d.pages.getLast? with
  | none => rfl
  | some p => cases p <;> rfl

/-- Every `ItemTag` matches exactly one of the nine projections, so the
lengths of the nine filters add up to the length of the list. -/
theorem tag_partition (l : List ItemTag) :
    (l.filterMap modProj).length + (l.filterMap nmodProj).length +
    (l.filterMap fnProj).length + (l.filterMap constProj).length +
    (l.filterMap enumProj).length + (l.filterMap traitProj).length +
    (l.filterMap implProj).length + (l.filterMap tyProj).length +
    (l.filterMap structProj).length = l.length := by
  induction l with
  | nil => rfl
  | cons a t ih =>
    cases a <;>
      simp [List.filterMap_cons, modProj, nmodProj, fnProj, constProj,
        enumProj, traitProj, implProj, tyProj, structProj] <;>
      omega

/-- A document whose single Crate page is followed by an Item page. -/
def docCrateThenItem : Doc :=
  ⟨[Page.CratePage ⟨rootModA⟩, Page.ItemPage (ItemTag.FnTag fnF)]⟩

/-! ### The claims -/

/-- C1 counterexample: `docCrateThenItem` has exactly one Crate page yet
`Doc::CrateDoc` fails on it, and `docTwoCrates` has two Crate pages yet
`Doc::CrateDoc` succeeds (returning the later one), contradicting the
claim that exactly one Crate page means success and zero or two mean
fatal failure. -/
theorem crateDoc_single_crate_claim_false :
    (cratePageCount docCrateThenItem = 1 ∧ docCrateThenItem.crateDoc = none) ∧
    (cratePageCount docTwoCrates = 2 ∧ docTwoCrates.crateDoc = some crateB) :=
  ⟨⟨rfl, rfl⟩, ⟨rfl, rfl⟩⟩

/-- C1 (amended): `Doc::CrateDoc` returns the payload of the last page
when that page is a Crate page, and fails fatally (returns `none`)
when the page sequence is empty or its last page is not a Crate page,
regardless of how many Crate pages occur earlier. -/
theorem crateDoc_returns_last_crate_page (d : Doc) :
    d.crateDoc =
      (match d.pages.getLast? with
       | some (Page.CratePage c) => some c
       | _ => none) :=
  crateDoc_eq_lastPage d

/-- C2: for every document with a non-empty page sequence, `Doc::CrateDoc`
succeeds with payload `c` iff the last page is `CratePage(c)`; when the
last page is an Item page, both `CrateDoc` and `cratemod` fail, however
many Crate pages occur earlier. -/
theorem crateDoc_last_page_only (d : Doc) (h : d.pages ≠ []) :
    (∀ c : CrateDoc,
      d.crateDoc = some c ↔ d.pages.getLast? = some (Page.CratePage c)) ∧
    (∀ t : ItemTag, d.pages.getLast? = some (Page.ItemPage t) →
      d.crateDoc = none ∧ d.cratemod = none) := by
  have hc := crateDoc_eq_lastPage d
  constructor
  · intro c
    rw [hc]
    cases hl : d.pages.getLast? with
    | none => exact absurd (List.getLast?_eq_none_iff.mp hl) h
    | some p =>
      cases p with
      | CratePage c2 =>
        simp only []
        constructor
        · intro hsome
          rw [Option.some_inj.mp hsome]
        · intro hpage
          have := Option.some_inj.mp hpage
          rw [Page.CratePage.injEq] at this
          rw [this]
      | ItemPage t =>
        simp only []
        constructor
        · intro hnone; exact absurd hnone (by simp)
        · intro hpage
          exact absurd (Option.some_inj.mp hpage) (by intro he; cases he)
  · intro t hl
    rw [hc, hl]
    exact ⟨rfl, by simp [Doc.cratemod, Doc.crateDoc] at hc ⊢; rw [hc, hl]⟩

/-- C2 witness: the scenario document has one Crate page, but it is not
last, so both `CrateDoc` and `cratemod` fail on it. -/
theorem crateDoc_last_page_only_witness :
    docScenario.pages ≠ [] ∧
    docScenario.crateDoc = none ∧ docScenario.cratemod = none :=
  ⟨by simp [docScenario],
   (crateDoc_last_page_only docScenario (by simp [docScenario])).2
     (ItemTag.FnTag fnF) rfl⟩

/-- C3 counterexample: on the scenario document
`[Crate(root={mods:[A]}), Item(Mod(A)), Item(Fn(f))]` the call
`crate_module()` does not return the root module at all — it fails
(the last page is an Item page), so `crate_module().mods()` cannot
return `[A]`. -/
theorem scenario_cratemod_fails : docScenario.cratemod = none := rfl

/-- C3 (amended): on the scenario document, `crate_module()` fails
fatally; the Crate page's root module itself has `mods() = [A]`, and the
page sequence has `fns() = [f]` and `traits() = []`. -/
theorem scenario_narrowing_results :
    docScenario.cratemod = none ∧
    rootModA.mods = [modA] ∧
    PageUtils.fns docScenario.pages = [fnF] ∧
    PageUtils.traits docScenario.pages = [] :=
  ⟨rfl, rfl, rfl, rfl⟩

/-- C4: each of the nine module-level narrowing operations returns exactly
the payloads of the children carrying the target tag, in the children's
relative order (re-wrapping the result in the tag gives the filtered child
list), and the result is empty iff no child carries the tag.  The
operations are total, so no error is ever signalled. -/
theorem module_narrowing_exact (m : ModDoc) :
    (m.mods.map ItemTag.ModTag = m.items.filter hasModTag ∧
      (m.mods = [] ↔ ∀ t ∈ m.items, ∀ x, t ≠ ItemTag.ModTag x)) ∧
    (m.nmods.map ItemTag.NmodTag = m.items.filter hasNmodTag ∧
      (m.nmods = [] ↔ ∀ t ∈ m.items, ∀ x, t ≠ ItemTag.NmodTag x)) ∧
    (m.fns.map ItemTag.FnTag = m.items.filter hasFnTag ∧
      (m.fns = [] ↔ ∀ t ∈ m.items, ∀ x, t ≠ ItemTag.FnTag x)) ∧
    (m.consts.map ItemTag.ConstTag = m.items.filter hasConstTag ∧
      (m.consts = [] ↔ ∀ t ∈ m.items, ∀ x, t ≠ ItemTag.ConstTag x)) ∧
    (m.enums.map ItemTag.EnumTag = m.items.filter hasEnumTag ∧
      (m.enums = [] ↔ ∀ t ∈ m.items, ∀ x, t ≠ ItemTag.EnumTag x)) ∧
    (m.traits.map ItemTag.TraitTag = m.items.filter hasTraitTag ∧
      (m.traits = [] ↔ ∀ t ∈ m.items, ∀ x, t ≠ ItemTag.TraitTag x)) ∧
    (m.impls.map ItemTag.ImplTag = m.items.filter hasImplTag ∧
      (m.impls = [] ↔ ∀ t ∈ m.items, ∀ x, t ≠ ItemTag.ImplTag x)) ∧
    (m.types.map ItemTag.TyTag = m.items.filter hasTyTag ∧
      (m.types = [] ↔ ∀ t ∈ m.items, ∀ x, t ≠ ItemTag.TyTag x)) ∧
    (m.structs.map ItemTag.StructTag = m.items.filter hasStructTag ∧
      (m.structs = [] ↔ ∀ t ∈ m.items, ∀ x, t ≠ ItemTag.StructTag x)) :=
  ⟨mod_filter_char m.items,
   nmod_filter_char m.items,
   fn_filter_char m.items,
   const_filter_char m.items,
   enum_filter_char m.items,
   trait_filter_char m.items,
   impl_filter_char m.items,
   ty_filter_char m.items,
   struct_filter_char m.items⟩

/-- C5 counterexample: the page-level operation set is not the same as the
module-level one — `trait PageUtils` has no `structs` method. -/
theorem page_op_set_differs : pageUtilsOpNames ≠ modDocOpNames := by
  decide

/-- C5 (amended): page-level narrowing offers the module-level operations
except `structs` (`mods`, `nmods`, `fns`, `consts`, `enums`, `traits`,
`impls`, `types`), and each returns, in original order, the payloads of
exactly those pages that are Item pages whose inner tag equals the target
tag. -/
theorem page_narrowing_exact (ps : List Page) :
    pageUtilsOpNames = modDocOpNames.filter (fun s => s != "structs") ∧
    ((PageUtils.mods ps).map (fun x => Page.ItemPage (ItemTag.ModTag x)) =
      ps.filter isModItemPage) ∧
    ((PageUtils.nmods ps).map (fun x => Page.ItemPage (ItemTag.NmodTag x)) =
      ps.filter isNmodItemPage) ∧
    ((PageUtils.fns ps).map (fun x => Page.ItemPage (ItemTag.FnTag x)) =
      ps.filter isFnItemPage) ∧
    ((PageUtils.consts ps).map (fun x => Page.ItemPage (ItemTag.ConstTag x)) =
      ps.filter isConstItemPage) ∧
    ((PageUtils.enums ps).map (fun x => Page.ItemPage (ItemTag.EnumTag x)) =
      ps.filter isEnumItemPage) ∧
    ((PageUtils.traits ps).map (fun x => Page.ItemPage (ItemTag.TraitTag x)) =
      ps.filter isTraitItemPage) ∧
    ((PageUtils.impls ps).map (fun x => Page.ItemPage (ItemTag.ImplTag x)) =
      ps.filter isImplItemPage) ∧
    ((PageUtils.types ps).map (fun x => Page.ItemPage (ItemTag.TyTag x)) =
      ps.filter isTyItemPage) :=
  ⟨by decide,
   pageMod_filter_char ps,
   pageNmod_filter_char ps,
   pageFn_filter_char ps,
   pageConst_filter_char ps,
   pageEnum_filter_char ps,
   pageTrait_filter_char ps,
   pageImpl_filter_char ps,
   pageTy_filter_char ps⟩

/-- C6: for every entity variant type and for `ItemTag` itself, the
generic `ItemUtils` accessors agree with the embedded item record, and
the `Item` dispatch for `ItemTag` returns the item record of whichever
variant is active. -/
theorem accessors_agree_with_item :
    (∀ v : ItemTag,
      ItemUtils.id v = (ItemTag.item v).id ∧
      ItemUtils.name v = (ItemTag.item v).name ∧
      ItemUtils.path v = (ItemTag.item v).path ∧
      ItemUtils.brief v = (ItemTag.item v).brief ∧
      ItemUtils.desc v = (ItemTag.item v).desc ∧
      ItemUtils.sections v = (ItemTag.item v).sections) ∧
    (∀ v : ModDoc,
      ItemUtils.id v = (v.item).id ∧
      ItemUtils.name v = (v.item).name ∧
      ItemUtils.path v = (v.item).path ∧
      ItemUtils.brief v = (v.item).brief ∧
      ItemUtils.desc v = (v.item).desc ∧
      ItemUtils.sections v = (v.item).sections) ∧
    (∀ v : NmodDoc,
      ItemUtils.id v = (v.item).id ∧
      ItemUtils.name v = (v.item).name ∧
      ItemUtils.path v = (v.item).path ∧
      ItemUtils.brief v = (v.item).brief ∧
      ItemUtils.desc v = (v.item).desc ∧
      ItemUtils.sections v = (v.item).sections) ∧
    (∀ v : SimpleItemDoc,
      ItemUtils.id v = (v.item).id ∧
      ItemUtils.name v = (v.item).name ∧
      ItemUtils.path v = (v.item).path ∧
      ItemUtils.brief v = (v.item).brief ∧
      ItemUtils.desc v = (v.item).desc ∧
      ItemUtils.sections v = (v.item).sections) ∧
    (∀ v : EnumDoc,
      ItemUtils.id v = (v.item).id ∧
      ItemUtils.name v = (v.item).name ∧
      ItemUtils.path v = (v.item).path ∧
      ItemUtils.brief v = (v.item).brief ∧
      ItemUtils.desc v = (v.item).desc ∧
      ItemUtils.sections v = (v.item).sections) ∧
    (∀ v : TraitDoc,
      ItemUtils.id v = (v.item).id ∧
      ItemUtils.name v = (v.item).name ∧
      ItemUtils.path v = (v.item).path ∧
      ItemUtils.brief v = (v.item).brief ∧
      ItemUtils.desc v = (v.item).desc ∧
      ItemUtils.sections v = (v.item).sections) ∧
    (∀ v : ImplDoc,
      ItemUtils.id v = (v.item).id ∧
      ItemUtils.name v = (v.item).name ∧
      ItemUtils.path v = (v.item).path ∧
      ItemUtils.brief v = (v.item).brief ∧
      ItemUtils.desc v = (v.item).desc ∧
      ItemUtils.sections v = (v.item).sections) ∧
    (∀ v : StructDoc,
      ItemUtils.id v = (v.item).id ∧
      ItemUtils.name v = (v.item).name ∧
      ItemUtils.path v = (v.item).path ∧
      ItemUtils.brief v = (v.item).brief ∧
      ItemUtils.desc v = (v.item).desc ∧
      ItemUtils.sections v = (v.item).sections) ∧
    (∀ d : ModDoc, ItemTag.item (ItemTag.ModTag d) = d.item) ∧
    (∀ d : NmodDoc, ItemTag.item (ItemTag.NmodTag d) = d.item) ∧
    (∀ d : ConstDoc, ItemTag.item (ItemTag.ConstTag d) = d.item) ∧
    (∀ d : FnDoc, ItemTag.item (ItemTag.FnTag d) = d.item) ∧
    (∀ d : EnumDoc, ItemTag.item (ItemTag.EnumTag d) = d.item) ∧
    (∀ d : TraitDoc, ItemTag.item (ItemTag.TraitTag d) = d.item) ∧
    (∀ d : ImplDoc, ItemTag.item (ItemTag.ImplTag d) = d.item) ∧
    (∀ d : TyDoc, ItemTag.item (ItemTag.TyTag d) = d.item) ∧
    (∀ d : StructDoc, ItemTag.item (ItemTag.StructTag d) = d.item) :=
  ⟨fun _v => ⟨rfl, rfl, rfl, rfl, rfl, rfl⟩, fun _v => ⟨rfl, rfl, rfl, rfl, rfl, rfl⟩, fun _v => ⟨rfl, rfl, rfl, rfl, rfl, rfl⟩, fun _v => ⟨rfl, rfl, rfl, rfl, rfl, rfl⟩, fun _v => ⟨rfl, rfl, rfl, rfl, rfl, rfl⟩, fun _v => ⟨rfl, rfl, rfl, rfl, rfl, rfl⟩, fun _v => ⟨rfl, rfl, rfl, rfl, rfl, rfl⟩, fun _v => ⟨rfl, rfl, rfl, rfl, rfl, rfl⟩, fun _d => rfl, fun _d => rfl, fun _d => rfl, fun _d => rfl, fun _d => rfl, fun _d => rfl, fun _d => rfl, fun _d => rfl, fun _d => rfl⟩

/-- C7: whenever `Doc::CrateDoc` succeeds with crate doc `c`, `cratemod`
returns `c.topmod`, and `cratemod` fails exactly when `CrateDoc` fails. -/
theorem cratemod_is_crateDoc_topmod (d : Doc) :
    (∀ c : CrateDoc, d.crateDoc = some c → d.cratemod = some c.topmod) ∧
    (d.cratemod = none ↔ d.crateDoc = none) := by
  constructor
  · intro c hc
    simp [Doc.cratemod, hc]
  · cases h : d.crateDoc <;> simp [Doc.cratemod, h]

/-- C7 witness: on the one-page crate document, `crateDoc` succeeds and
`cratemod` returns its root module. -/
theorem cratemod_is_crateDoc_topmod_witness :
    docOneCrate.cratemod = some (CrateDoc.mk rootModA).topmod ∧
    (docOneCrate.cratemod = none ↔ docOneCrate.crateDoc = none) :=
  ⟨(cratemod_is_crateDoc_topmod docOneCrate).1 ⟨rootModA⟩ rfl,
   (cratemod_is_crateDoc_topmod docOneCrate).2⟩

/-- C8: module-level filtering is idempotent — re-wrapping the payloads of
a module's `T`-filtered children back into `T` tags and filtering the
resulting homogeneous module by `T` again returns the payloads unchanged,
for every target tag. -/
theorem module_filter_idempotent (m : ModDoc) (i : ItemDoc)
    (ix : Option Index) :
    (ModDoc.mk i (m.mods.map ItemTag.ModTag) ix).mods = m.mods ∧
    (ModDoc.mk i (m.nmods.map ItemTag.NmodTag) ix).nmods = m.nmods ∧
    (ModDoc.mk i (m.fns.map ItemTag.FnTag) ix).fns = m.fns ∧
    (ModDoc.mk i (m.consts.map ItemTag.ConstTag) ix).consts = m.consts ∧
    (ModDoc.mk i (m.enums.map ItemTag.EnumTag) ix).enums = m.enums ∧
    (ModDoc.mk i (m.traits.map ItemTag.TraitTag) ix).traits = m.traits ∧
    (ModDoc.mk i (m.impls.map ItemTag.ImplTag) ix).impls = m.impls ∧
    (ModDoc.mk i (m.types.map ItemTag.TyTag) ix).types = m.types ∧
    (ModDoc.mk i (m.structs.map ItemTag.StructTag) ix).structs = m.structs :=
  ⟨filterMap_of_map_section modProj ItemTag.ModTag (fun _b => rfl) m.mods,
   filterMap_of_map_section nmodProj ItemTag.NmodTag (fun _b => rfl) m.nmods,
   filterMap_of_map_section fnProj ItemTag.FnTag (fun _b => rfl) m.fns,
   filterMap_of_map_section constProj ItemTag.ConstTag (fun _b => rfl) m.consts,
   filterMap_of_map_section enumProj ItemTag.EnumTag (fun _b => rfl) m.enums,
   filterMap_of_map_section traitProj ItemTag.TraitTag (fun _b => rfl) m.traits,
   filterMap_of_map_section implProj ItemTag.ImplTag (fun _b => rfl) m.impls,
   filterMap_of_map_section tyProj ItemTag.TyTag (fun _b => rfl) m.types,
   filterMap_of_map_section structProj ItemTag.StructTag (fun _b => rfl) m.structs⟩

/-- C9: the reexport flag participates in the derived structural equality —
two item records identical in every other field but differing in the
reexport flag are unequal, and so are entities embedding them. -/
theorem reexport_flag_in_equality (a b : ItemDoc)
    (_hid : a.id = b.id) (_hname : a.name = b.name)
    (_hpath : a.path = b.path) (_hbrief : a.brief = b.brief)
    (_hdesc : a.desc = b.desc) (_hsections : a.sections = b.sections)
    (hre : a.reexport ≠ b.reexport) :
    a ≠ b ∧
    (∀ sig : Option String,
      SimpleItemDoc.mk a sig ≠ SimpleItemDoc.mk b sig) ∧
    (∀ (xs : List ItemTag) (ix : Option Index),
      ModDoc.mk a xs ix ≠ ModDoc.mk b xs ix) := by
  have hab : a ≠ b := fun h => hre (congrArg ItemDoc.reexport h)
  refine ⟨hab, fun sig h => hab ?_, fun xs ix h => hab ?_⟩
  · injection h
  · injection h

/-- An item record identical to `sampleItem "x"` except for the reexport
flag. -/
def sampleItemRe : ItemDoc := { sampleItem "x" with reexport := true }

/-- C9 witness: the concrete pair differing only in the reexport flag is
unequal, as are the simple items and modules embedding the pair. -/
theorem reexport_flag_in_equality_witness :
    sampleItem "x" ≠ sampleItemRe ∧
    (∀ sig : Option String,
      SimpleItemDoc.mk (sampleItem "x") sig ≠ SimpleItemDoc.mk sampleItemRe sig) ∧
    (∀ (xs : List ItemTag) (ix : Option Index),
      ModDoc.mk (sampleItem "x") xs ix ≠ ModDoc.mk sampleItemRe xs ix) :=
  reexport_flag_in_equality (sampleItem "x") sampleItemRe
    rfl rfl rfl rfl rfl rfl (by decide)

/-- C10: the nine module-level narrowing operations partition a module's
children — every child carries exactly one tag, so the lengths of the
nine narrowed sequences add up to the number of children. -/
theorem module_narrowing_partitions (m : ModDoc) :
    m.mods.length + m.nmods.length + m.fns.length + m.consts.length +
    m.enums.length + m.traits.length + m.impls.length + m.types.length +
    m.structs.length = m.items.length :=
  tag_partition m.items
